import Mathlib

/-!
# Verification of the LocalEGA ingestion worker core

A shallow embedding, in Lean 4, of the messaging and processing core of the
LocalEGA ingestion worker:

* the sensitive-value configuration resolver
  (`src/ingestion/lega/conf/__init__.py`: `get_from_file`, `convert_sensitive`);
* the TLS-context construction of the AMQP connection manager
  (`src/lega/utils/amqp.py`: `AMQPConnection.fetch_args`);
* the message dispatcher
  (`src/lega/utils/amqp.py`: `_handle_request`, `consume.process_request`,
  module-level `publish`);
* the ingestion pipeline (`src/lega/ingest.py`: `work`).

Python dictionaries are modelled as insertion-ordered association lists
(`Msg`), Python strings as Lean `String` with slicing and prefix tests
implemented over the underlying character lists, side effects (AMQP
publishes, acks, database calls, file removals) as explicit event lists,
and exceptions as `Except` values.
-/

/-! ## Python string primitives -/

/-- Python `s.startswith(pre)`: prefix test on the character list. -/
def pyStartsWith (s pre : String) : Bool :=
  pre.data.isPrefixOf s.data

/-- Python slicing `s[n:]`: drop the first `n` characters. -/
def pySliceFrom (s : String) (n : Nat) : String :=
  String.mk (s.data.drop n)

/-- Python `s.lstrip(c)` for a single slash: drop leading `/` characters
(`filepath.lstrip('/')` in `src/lega/ingest.py`). -/
def pyLstripSlash (s : String) : String :=
  String.mk (s.data.dropWhile (fun c => c == '/'))

/-! ## JSON values and Python dictionaries -/

/-- A JSON-ish value, as found in the worker's AMQP message bodies. -/
inductive JVal where
  | str : String → JVal
  | int : Int → JVal
  | obj : List (String × JVal) → JVal

/-- A Python dictionary with string keys, as an insertion-ordered
association list (keys are unique in every dictionary the code builds). -/
abbrev Msg := List (String × JVal)

/-- Python `d[k]` lookup (`None`-free: `none` means `KeyError`). -/
def msgGet : Msg → String → Option JVal
  | [], _ => none
  | (k', v) :: rest, k => if k' == k then some v else msgGet rest k

/-- Does the dictionary have the key? -/
def msgHas (m : Msg) (k : String) : Bool :=
  (msgGet m k).isSome

/-- Replace the value of the first entry with key `k`, keeping its position. -/
def msgSetIn : Msg → String → JVal → Msg
  | [], _, _ => []
  | (k', v') :: rest, k, v =>
    if k' == k then (k', v) :: rest else (k', v') :: msgSetIn rest k v

/-- Python `d[k] = v`: overwrite in place when the key exists, otherwise
append at the end (insertion order). -/
def msgSet (m : Msg) (k : String) (v : JVal) : Msg :=
  if msgHas m k then msgSetIn m k v else m ++ [(k, v)]

/-- Python `d.pop(k, None)`: remove the entry with key `k` when present. -/
def msgPop : Msg → String → Msg
  | [], _ => []
  | (k', v') :: rest, k =>
    if k' == k then rest else (k', v') :: msgPop rest k

/-! ## Sensitive-value resolver (`src/ingestion/lega/conf/__init__.py`) -/

/-- Outcome of resolving a sensitive value: a text string (plain values,
`value://`, `env://`, `file://`) or a byte string (`secret://`, read in
binary mode; its contents are opaque here). -/
inductive SensVal where
  | str : String → SensVal
  | bytes : String → SensVal

/-- How resolving a sensitive value can fail.

* `valueError` is the typed failure (`ValueError` in the implementation):
  raised by `get_from_file` on any read error and by the `env://` branch
  when the variable is unset.
* `osError` is an untyped `OSError` (`FileNotFoundError`,
  `PermissionError`, ...) escaping `os.stat` in the `file://` branch of
  `convert_sensitive`, which runs before `get_from_file`. -/
inductive SensErr where
  | valueError : String → SensErr
  | osError : String → SensErr

/-- The file-system environment that `convert_sensitive`/`get_from_file`
run against.

* `getenv p` — `os.getenv(p)`;
* `statOk p` — whether `os.stat(p)` succeeds;
* `readText p` / `readBin p` — result of `open(p, mode).read()`,
  `none` meaning the open or read raises;
* `removeOk p` — whether `os.remove(p)` succeeds. -/
structure SensEnv where
  getenv : String → Option String
  statOk : String → Bool
  readText : String → Option String
  readBin : String → Option String
  removeOk : String → Bool

/-- Observable file-system side effects of the resolver. -/
inductive FsAct where
  | removed : String → FsAct
  | removeFailed : String → FsAct

/-- Did the action list attempt to delete `p` (successfully or not)? -/
def attemptedRemove (acts : List FsAct) (p : String) : Prop :=
  FsAct.removed p ∈ acts ∨ FsAct.removeFailed p ∈ acts

/-- `get_from_file(filepath, mode, remove_after)` from
`src/ingestion/lega/conf/__init__.py` lines 36-51: read the file, raising
`ValueError` on any read error; in a `finally` clause, when `remove_after`
is set, attempt `os.remove` and swallow (log) any removal failure. -/
def get_from_file (env : SensEnv) (filepath : String)
    (binary : Bool) (remove_after : Bool) :
    Except SensErr String × List FsAct :=
  let readRes := if binary then env.readBin filepath else env.readText filepath
  let acts := if remove_after then
      (if env.removeOk filepath then [FsAct.removed filepath]
       else [FsAct.removeFailed filepath])
    else []
  match readRes with
  | some contents => (Except.ok contents, acts)
  | none => (Except.error (SensErr.valueError ("Error loading " ++ filepath)), acts)

/-- `convert_sensitive(value)` from `src/ingestion/lega/conf/__init__.py`
lines 54-111. Scheme dispatch in source order: `value://`, `env://`,
`file://` (an `os.stat` call precedes the read; its failure escapes as an
untyped `OSError`), `secret://` (binary read, removed afterwards),
otherwise the literal value. `None` input returns `None`. -/
def convert_sensitive (env : SensEnv) (value : Option String) :
    Except SensErr (Option SensVal) × List FsAct :=
  match value with
  | none => (Except.ok none, [])
  | some v =>
    if pyStartsWith v "value://" then
      (Except.ok (some (SensVal.str (pySliceFrom v 8))), [])
    else if pyStartsWith v "env://" then
      let envvar := pySliceFrom v 6
      match env.getenv envvar with
      | none =>
        (Except.error (SensErr.valueError
          ("Environment variable " ++ envvar ++ " not found")), [])
      | some envvalue => (Except.ok (some (SensVal.str envvalue)), [])
    else if pyStartsWith v "file://" then
      let path := pySliceFrom v 7
      if env.statOk path then
        let r := get_from_file env path false false
        (r.1.map (fun c => some (SensVal.str c)), r.2)
      else
        (Except.error (SensErr.osError path), [])
    else if pyStartsWith v "secret://" then
      let path := pySliceFrom v 9
      let r := get_from_file env path true true
      (r.1.map (fun c => some (SensVal.bytes c)), r.2)
    else
      (Except.ok (some (SensVal.str v)), [])

/-! ## TLS context construction (`src/lega/utils/amqp.py`, `fetch_args`) -/

/-- The `ssl` module verification modes the code uses. -/
inductive VerifyMode where
  | certNone : VerifyMode
  | certRequired : VerifyMode
deriving DecidableEq

/-- The fields of the `ssl.SSLContext` that `fetch_args` sets, together
with the `server_hostname` entry of the resulting `ssl_options`. -/
structure SSLOptions where
  verify_mode : VerifyMode
  check_hostname : Bool
  ca_loaded : Option String
  client_chain : Option (String × String)
  server_hostname : Option String
deriving DecidableEq

/-- The `broker` configuration-section values consulted by `fetch_args`
(each `Option` models a key that may be absent; the booleans come from
`CONF.getboolean(..., fallback=False)`). -/
structure BrokerConf where
  verify_peer : Bool
  verify_hostname : Bool
  cacertfile : Option String
  certfile : Option String
  keyfile : Option String
  server_hostname : Option String

/-- Python truthiness of an optional string (`None` and `""` are falsy). -/
def strTruthy : Option String → Bool
  | none => false
  | some s => !(s == "")

/-- The TLS part of `AMQPConnection.fetch_args`
(`src/lega/utils/amqp.py` lines 81-113): when the connection URI starts
with `amqps`, build an SSL context: start from `CERT_NONE`; if
`verify_peer` require a certificate and load `cacertfile`; if
`verify_hostname`, assert that `server_hostname` is set (an
`AssertionError` otherwise), then enable hostname checking and require a
certificate; if `certfile` is set, read `keyfile` (`CONF.get` without a
fallback raises when absent) and load the client chain. A non-`amqps` URI
produces no SSL options. -/
def fetch_args (uri : String) (c : BrokerConf) :
    Except String (Option SSLOptions) :=
  if pyStartsWith uri "amqps" then
    let vm1 := if c.verify_peer then VerifyMode.certRequired else VerifyMode.certNone
    let ca1 : Option String := if c.verify_peer then c.cacertfile else none
    if c.verify_hostname && !(strTruthy c.server_hostname) then
      Except.error "server_hostname must be set if verify_hostname is"
    else
      let ch := c.verify_hostname
      let vm2 := if c.verify_hostname then VerifyMode.certRequired else vm1
      match c.certfile with
      | some cf =>
        match c.keyfile with
        | some kf =>
          Except.ok (some { verify_mode := vm2, check_hostname := ch,
                            ca_loaded := ca1, client_chain := some (cf, kf),
                            server_hostname := c.server_hostname })
        | none => Except.error "NoOptionError: keyfile"
      | none =>
        Except.ok (some { verify_mode := vm2, check_hostname := ch,
                          ca_loaded := ca1, client_chain := none,
                          server_hostname := c.server_hostname })
  else Except.ok none

/-! ## Dispatcher configuration (`src/lega/utils/amqp.py`, `consume`) -/

/-- The `DEFAULT` section of the configuration file: a partial map from
option names to raw values. -/
def Config := String → Option String

/-- `CONF.get('DEFAULT', key, fallback=fb)`. -/
def confGet (cfg : Config) (key fb : String) : String :=
  (cfg key).getD fb

/-- The exchange and routing keys the dispatcher works with. `errorKey` is
the variable named `error_key` in the source (used for system errors);
`userErrorKey` is `user_error_key` (used for user errors). -/
structure DispatchKeys where
  exchange : String
  errorKey : String
  userErrorKey : String

/-- The configuration reads at the top of `consume`
(`src/lega/utils/amqp.py` lines 230-233). -/
def consume_keys (cfg : Config) : DispatchKeys :=
  { exchange := confGet cfg "exchange" "ingestion.v1"
  , errorKey := confGet cfg "error" "error.system"
  , userErrorKey := confGet cfg "user_error" "error" }

/-! ## Publishing (`src/lega/utils/amqp.py`, module-level `publish`) -/

/-- The value passed as the `exchange` argument of `publish`: normally a
string, but `src/lega/ingest.py` passes the broker channel object in that
position. -/
inductive PubExchange where
  | str : String → PubExchange
  | channel : PubExchange

/-- One observable broker action of the dispatcher: a publish (exchange,
routing key, correlation id, JSON content), an ack, or a reject with its
requeue flag. -/
inductive BAct where
  | publish : PubExchange → String → String → Msg → BAct
  | ack : BAct
  | reject : Bool → BAct

/-- Python `a or b` on optional strings (`None` and `""` are falsy). -/
def pyOrStr (a b : Option String) : Option String :=
  match a with
  | some s => if s == "" then b else some s
  | none => b

/-- Module-level `publish(content, exchange=None, routing_key=None,
correlation_id=None)` (`src/lega/utils/amqp.py` lines 290-296):
fall back to the ambient correlation id and assert it is set; default the
exchange to `DEFAULT.exchange` (fallback `ingestion.v1`) when the argument
is falsy; default the routing key to `DEFAULT.routing_key` (no fallback:
a missing option raises). Returns the publish action performed. -/
def publish (cfg : Config) (ambient : Option String) (content : Msg)
    (exchange : Option PubExchange) (routing_key : Option String)
    (correlation_id : Option String) : Except String BAct :=
  match pyOrStr correlation_id ambient with
  | none => Except.error "You should not publish without a correlation id"
  | some cid =>
    if cid == "" then
      Except.error "You should not publish without a correlation id"
    else
      let ex := match exchange with
        | some PubExchange.channel => PubExchange.channel
        | some (PubExchange.str s) =>
          if s == "" then PubExchange.str (confGet cfg "exchange" "ingestion.v1")
          else PubExchange.str s
        | none => PubExchange.str (confGet cfg "exchange" "ingestion.v1")
      match pyOrStr routing_key (cfg "routing_key") with
      | none => Except.error "NoOptionError: routing_key"
      | some rk => Except.ok (BAct.publish ex rk cid content)

/-! ## Message dispatcher (`src/lega/utils/amqp.py`, `_handle_request`
and `consume.process_request`) -/

/-- The outcome of calling `work(content)` on a (parsed, mutable) dict.
Each constructor carries the state of `content` after `work` returned or
raised (the worker mutates the dict in place); error constructors carry
`str(cause)` and `repr(cause)` of the eventual cause. -/
inductive WorkOutcome where
  | ok : Msg → WorkOutcome
  | rejectMessage : Msg → WorkOutcome
  | fromUser : Msg → String → String → WorkOutcome
  | jsonDecode : Msg → String → String → WorkOutcome
  | otherExc : Msg → String → String → WorkOutcome

/-- An exception escaping `_handle_request` into `process_request`. -/
inductive Propagated where
  | fromUser : String → String → Propagated
  | jsonDecode : String → String → Propagated
  | otherExc : String → String → Propagated
  | assertFail : String → Propagated

/-- Modelled from the spec: `clean_message` (defined in
`lega/utils/__init__.py`, which is not part of the sources) removes the
internal-only fields `file_id`, `org_msg`, `header` and `vault_path` from
a message, in place, before it is published to an external exchange. -/
def clean_message (m : Msg) : Msg :=
  msgPop (msgPop (msgPop (msgPop m "file_id") "org_msg") "header") "vault_path"

/-- The `{informal, formal}` error object the outer handler attaches. -/
def errObj (informal formal : String) : JVal :=
  JVal.obj [("informal", JVal.str informal), ("formal", JVal.str formal)]

/-- `_handle_request(work, message, content, exchange, error_key,
user_error_key)` (`src/lega/utils/amqp.py` lines 197-220): run the job and
classify. Success: ack. `RejectMessage`: reject (requeue). `FromUser`: set
`content['reason'] = str(cause)`, scrub with `clean_message`, publish to
the user-error key, ack, re-raise. Anything else propagates. Returns the
actions performed, the final state of `content`, and the escaping
exception, if any. -/
def handle_request (cfg : Config) (ambient : Option String)
    (userErrorKey : String) (outcome : WorkOutcome) :
    List BAct × Msg × Option Propagated :=
  match outcome with
  | WorkOutcome.ok m => ([BAct.ack], m, none)
  | WorkOutcome.rejectMessage m => ([BAct.reject true], m, none)
  | WorkOutcome.fromUser m s r =>
    let c1 := clean_message (msgSet m "reason" (JVal.str s))
    match publish cfg ambient c1 none (some userErrorKey) none with
    | Except.ok a => ([a, BAct.ack], c1, some (Propagated.fromUser s r))
    | Except.error msg => ([], c1, some (Propagated.assertFail msg))
  | WorkOutcome.jsonDecode m s r => ([], m, some (Propagated.jsonDecode s r))
  | WorkOutcome.otherExc m s r => ([], m, some (Propagated.otherExc s r))

/-- A delivery with content type `application/json`, after the parse
attempt: either the body failed to parse (carrying `repr` of the decode
error and the raw body), or it parsed to a dict. -/
inductive Inbound where
  | malformed : String → String → Inbound
  | parsed : Msg → Inbound

/-- `process_request(message)` inside `consume`
(`src/lega/utils/amqp.py` lines 238-278), for a delivery with a JSON
content type: parse; on `json.JSONDecodeError` publish the
`{informal, formal, message}` envelope on the system-error key and reject
without requeue; ack empty content; otherwise run `_handle_request` and,
for an escaping exception, publish on the system-error key (the content
enriched with `content['error']`, except for a decode error, which uses
the envelope) and reject without requeue. Returns the broker actions in
order. -/
def process_request (cfg : Config) (cid : String) (inbound : Inbound)
    (outcome : Msg → WorkOutcome) : List BAct :=
  let ks := consume_keys cfg
  match inbound with
  | Inbound.malformed jeRepr rawBody =>
    [ BAct.publish (PubExchange.str ks.exchange) ks.errorKey cid
        [ ("informal", JVal.str "Malformed JSON-message")
        , ("formal", JVal.str jeRepr)
        , ("message", JVal.str rawBody) ]
    , BAct.reject false ]
  | Inbound.parsed m =>
    if m.isEmpty then [BAct.ack]
    else
      let hr := handle_request cfg (some cid) ks.userErrorKey (outcome m)
      match hr.2.2 with
      | none => hr.1
      | some (Propagated.fromUser s r) =>
        hr.1 ++
          [ BAct.publish (PubExchange.str ks.exchange) ks.errorKey cid
              (msgSet hr.2.1 "error" (errObj s r))
          , BAct.reject false ]
      | some (Propagated.otherExc s r) =>
        hr.1 ++
          [ BAct.publish (PubExchange.str ks.exchange) ks.errorKey cid
              (msgSet hr.2.1 "error" (errObj s r))
          , BAct.reject false ]
      | some (Propagated.assertFail msg) =>
        hr.1 ++
          [ BAct.publish (PubExchange.str ks.exchange) ks.errorKey cid
              (msgSet hr.2.1 "error" (errObj msg ("AssertionError: " ++ msg)))
          , BAct.reject false ]
      | some (Propagated.jsonDecode _ r) =>
        hr.1 ++
          [ BAct.publish (PubExchange.str ks.exchange) ks.errorKey cid
              [ ("informal", JVal.str "Malformed JSON-message")
              , ("formal", JVal.str r)
              , ("message", JVal.obj hr.2.1) ]
          , BAct.reject false ]

/-- Number of publishes on a given routing key in an action list. -/
def pubCount (acts : List BAct) (rk : String) : Nat :=
  (acts.filter (fun a => match a with
    | BAct.publish _ k _ _ => k == rk
    | _ => false)).length

/-! ## Ingestion worker (`src/lega/ingest.py`, `work`) -/

/-- Drop the characters up to and including the first colon, when there
is one. -/
def dropThroughColon : List Char → Option (List Char)
  | [] => none
  | c :: rest => if c == ':' then some rest else dropThroughColon rest

/-- Modelled from the spec: `sanitize_user_id` (defined in
`lega/utils/__init__.py`, which is not part of the sources) strips a
leading `scheme:` prefix up to and including the first colon and a
trailing `@domain` suffix, yielding a bare user id
(`elixir:alice@example.org` becomes `alice`; `bob` stays `bob`). -/
def sanitize_user_id (u : String) : String :=
  let afterScheme :=
    match dropThroughColon u.data with
    | some rest => rest
    | none => u.data
  String.mk (afterScheme.takeWhile (fun c => !(c == '@')))

/-- Substitute the second list at the first `%s` of the first list. -/
def substPercentS : List Char → List Char → List Char
  | [], _ => []
  | '%' :: 's' :: rest, s => s ++ rest
  | c :: rest, s => c :: substPercentS rest s

/-- Python `template % user_id` for an inbox-location template containing
one `%s` placeholder (`CONF.get_value('inbox', 'location', raw=True) %
user_id` in `src/lega/ingest.py` line 53): substitute at the first
placeholder. -/
def formatTemplate (t s : String) : String :=
  String.mk (substPercentS t.data s.data)

/-- The environment `work` runs against: the inbox location template from
the configuration, the id the database assigns in `insert_file`, and the
results of the header parser and the storage driver for this request. -/
structure WorkEnv where
  inboxTemplate : String
  fileId : Int
  headerHex : String
  target : String
  targetSize : Nat

/-- One observable side effect of the ingestion pipeline, in order:
database calls (`db.insert_file`, `db.mark_in_progress`, `db.set_info`)
and the progress publish. -/
inductive Ev where
  | insertFile : String → String → Ev
  | markInProgress : Int → Ev
  | published : BAct → Ev
  | setInfo : Int → String → Nat → String → Ev

/-- How `work` can fail. -/
inductive IngestErr where
  | keyError : String → IngestErr
  | typeErr : IngestErr
  | notFoundInInbox : String → IngestErr
  | publishFail : String → IngestErr

/-- `work(fs, channel, data)` from `src/lega/ingest.py` lines 36-89:
read `filepath` and `user` from the request; sanitize the user id;
`insert_file` and stash `file_id` on the request; take the `org_msg`
shallow copy and store it (by reference) on the request; resolve the
inbox path and raise `NotFoundInInbox` when the file is absent;
`mark_in_progress`; set `org_msg['status'] = 'PROCESSING'` and call
`publish(org_msg, channel, 'cega', 'files.processing')` — the call binds
the channel object to the `exchange` parameter of the 4-ary `publish` in
`src/lega/utils/amqp.py`, `'cega'` to `routing_key` and
`'files.processing'` to `correlation_id`; pop `status`; extract the
header, copy the payload, `set_info`; attach `header` and `vault_path`
and return the reply. Returns the event trace and the reply or error. -/
def work (cfg : Config) (ambient : Option String) (env : WorkEnv)
    (pathExists : String → Bool) (data : Msg) :
    List Ev × Except IngestErr Msg :=
  match msgGet data "filepath" with
  | none => ([], Except.error (IngestErr.keyError "filepath"))
  | some (JVal.int _) => ([], Except.error IngestErr.typeErr)
  | some (JVal.obj _) => ([], Except.error IngestErr.typeErr)
  | some (JVal.str filepath) =>
    match msgGet data "user" with
    | none => ([], Except.error (IngestErr.keyError "user"))
    | some (JVal.int _) => ([], Except.error IngestErr.typeErr)
    | some (JVal.obj _) => ([], Except.error IngestErr.typeErr)
    | some (JVal.str user) =>
      let user_id := sanitize_user_id user
      let file_id := env.fileId
      let data1 := msgSet data "file_id" (JVal.int file_id)
      let inbox := formatTemplate env.inboxTemplate user_id
      let inbox_filepath := inbox ++ "/" ++ pyLstripSlash filepath
      if pathExists inbox_filepath then
        let org_pub := msgSet data1 "status" (JVal.str "PROCESSING")
        match publish cfg ambient org_pub (some PubExchange.channel)
            (some "cega") (some "files.processing") with
        | Except.error msg =>
          ([Ev.insertFile filepath user_id, Ev.markInProgress file_id],
           Except.error (IngestErr.publishFail msg))
        | Except.ok a =>
          let org_final := msgPop org_pub "status"
          let data2 := msgSet data1 "org_msg" (JVal.obj org_final)
          let data3 := msgSet data2 "header" (JVal.str env.headerHex)
          let data4 := msgSet data3 "vault_path" (JVal.str env.target)
          ([ Ev.insertFile filepath user_id
           , Ev.markInProgress file_id
           , Ev.published a
           , Ev.setInfo file_id env.target env.targetSize env.headerHex ],
           Except.ok data4)
      else
        ([Ev.insertFile filepath user_id],
         Except.error (IngestErr.notFoundInInbox filepath))

/-! ## Helper lemmas -/

theorem pyStartsWith_append (pre s : String) :
    pyStartsWith (pre ++ s) pre = true := by
  simp [pyStartsWith, String.data_append, List.isPrefixOf_iff_prefix]

theorem pySliceFrom_append (pre s : String) :
    pySliceFrom (pre ++ s) pre.length = s := by
  have h : (pre ++ s).data = pre.data ++ s.data := String.data_append pre s
  have hlen : pre.length = pre.data.length := rfl
  simp only [pySliceFrom, h, hlen, List.drop_left]

theorem msgGet_msgSet_self (m : Msg) (k : String) (v : JVal) :
    msgGet (msgSet m k v) k = some v := by
  unfold msgSet
  by_cases h : msgHas m k
  · simp only [h, if_pos]
    induction m with
    | nil => simp [msgHas, msgGet] at h
    | cons p rest ih =>
      obtain ⟨k', v'⟩ := p
      by_cases hk : k' == k
      · simp [msgSetIn, msgGet, hk]
      · simp only [msgHas, msgGet, hk, if_neg, Bool.false_eq_true, not_false_iff] at h
        simp only [msgSetIn, hk, if_neg, Bool.false_eq_true, not_false_iff, msgGet]
        exact ih h
  · simp only [h, if_neg, Bool.false_eq_true, not_false_iff]
    induction m with
    | nil => simp [msgGet]
    | cons p rest ih =>
      obtain ⟨k', v'⟩ := p
      by_cases hk : k' == k
      · simp [msgHas, msgGet, hk] at h
      · simp only [msgHas, msgGet, hk, if_neg, Bool.false_eq_true, not_false_iff] at h
        simp only [List.cons_append, msgGet, hk, if_neg, Bool.false_eq_true, not_false_iff]
        exact ih h

theorem msgGet_msgSetIn_ne (m : Msg) (k' k : String) (v : JVal) (h : k' ≠ k) :
    msgGet (msgSetIn m k' v) k = msgGet m k := by
  induction m with
  | nil => rfl
  | cons p rest ih =>
    obtain ⟨k₀, v₀⟩ := p
    by_cases hk : k₀ == k'
    · have hne : (k₀ == k) = false := by
        have : k₀ = k' := by simpa using hk
        simp [this, h]
      simp [msgSetIn, hk, msgGet, hne]
    · simp only [msgSetIn, hk, if_neg, Bool.false_eq_true, not_false_iff, msgGet]
      by_cases hk2 : k₀ == k
      · simp [hk2]
      · simp [hk2, ih]

theorem msgGet_msgSet_ne (m : Msg) (k' k : String) (v : JVal) (h : k' ≠ k) :
    msgGet (msgSet m k' v) k = msgGet m k := by
  unfold msgSet
  by_cases hh : msgHas m k'
  · simp only [hh, if_pos]
    exact msgGet_msgSetIn_ne m k' k v h
  · simp only [hh, if_neg, Bool.false_eq_true, not_false_iff]
    induction m with
    | nil =>
      have : (k' == k) = false := by simp [h]
      simp [msgGet, this]
    | cons p rest ih =>
      obtain ⟨k₀, v₀⟩ := p
      by_cases hk : k₀ == k'
      · simp [msgHas, msgGet, hk] at hh
      · simp only [msgHas, msgGet, hk, if_neg, Bool.false_eq_true, not_false_iff] at hh
        simp only [List.cons_append, msgGet]
        by_cases hk2 : k₀ == k
        · simp [hk2]
        · simp [hk2, ih hh]

theorem msgPop_msgSet_of_none (m : Msg) (k : String) (v : JVal)
    (h : msgGet m k = none) : msgPop (msgSet m k v) k = m := by
  have hh : msgHas m k = false := by simp [msgHas, h]
  unfold msgSet
  simp only [hh, Bool.false_eq_true, if_neg, not_false_iff]
  induction m with
  | nil => simp [msgPop]
  | cons p rest ih =>
    obtain ⟨k₀, v₀⟩ := p
    by_cases hk : k₀ == k
    · simp [msgGet, hk] at h
    · simp only [msgGet, hk, if_neg, Bool.false_eq_true, not_false_iff] at h
      simp [msgPop, hk, ih h (by simp [msgHas, h])]

theorem msgGet_msgPop_ne (m : Msg) (k' k : String) (h : k' ≠ k) :
    msgGet (msgPop m k') k = msgGet m k := by
  induction m with
  | nil => rfl
  | cons p rest ih =>
    obtain ⟨k₀, v₀⟩ := p
    by_cases hk : k₀ == k'
    · have hne : (k₀ == k) = false := by
        have : k₀ = k' := by simpa using hk
        simp [this, h]
      simp [msgPop, hk, msgGet, hne]
    · simp only [msgPop, hk, if_neg, Bool.false_eq_true, not_false_iff, msgGet]
      by_cases hk2 : k₀ == k
      · simp [hk2]
      · simp [hk2, ih]

/-! ## Concrete fixtures -/

/-- A file-system environment in which every stat and read fails. -/
def sensEnvMissing : SensEnv :=
  { getenv := fun _ => none, statOk := fun _ => false
  , readText := fun _ => none, readBin := fun _ => none
  , removeOk := fun _ => true }

/-- A file-system environment in which every file is readable. -/
def sensEnvReadable : SensEnv :=
  { getenv := fun _ => none, statOk := fun _ => true
  , readText := fun _ => some "secret-contents"
  , readBin := fun _ => some "secret-contents"
  , removeOk := fun _ => true }

/-- A broker section with `verify_hostname` set but no `server_hostname`. -/
def brokerNoSNI : BrokerConf :=
  { verify_peer := false, verify_hostname := true, cacertfile := none
  , certfile := none, keyfile := none, server_hostname := none }

/-- A broker section with `verify_hostname` and `server_hostname` set. -/
def brokerWithSNI : BrokerConf :=
  { verify_peer := false, verify_hostname := true, cacertfile := none
  , certfile := none, keyfile := none, server_hostname := some "mq.local" }

/-- The SSL options `fetch_args` builds for `brokerWithSNI`. -/
def sslWithSNI : SSLOptions :=
  { verify_mode := VerifyMode.certRequired, check_hostname := true
  , ca_loaded := none, client_chain := none
  , server_hostname := some "mq.local" }

/-- An empty `DEFAULT` section: every option falls back to its default. -/
def cfgEmpty : Config := fun _ => none

/-- A `DEFAULT` section that sets only `error = foo`. -/
def cfgErrFoo : Config := fun k => if k = "error" then some "foo" else none

/-- A worker environment for the happy path. -/
def envHappy : WorkEnv :=
  { inboxTemplate := "/ega/inbox/%s", fileId := 1, headerHex := "0a0b"
  , target := "/vault/001", targetSize := 876 }

/-- The inbound ingestion request of the spec's happy-path scenario. -/
def reqHappy : Msg :=
  [("filepath", JVal.str "/a/b.c4gh"), ("user", JVal.str "alice")]

/-- The reply `work` builds for `reqHappy` in `envHappy`. -/
def resHappy : Msg :=
  [ ("filepath", JVal.str "/a/b.c4gh"), ("user", JVal.str "alice")
  , ("file_id", JVal.int 1)
  , ("org_msg", JVal.obj
      [ ("filepath", JVal.str "/a/b.c4gh"), ("user", JVal.str "alice")
      , ("file_id", JVal.int 1) ])
  , ("header", JVal.str "0a0b"), ("vault_path", JVal.str "/vault/001") ]

/-- Every inbox path exists. -/
def allExists : String → Bool := fun _ => true

/-- No inbox path exists. -/
def noneExists : String → Bool := fun _ => false

/-- A small one-field message. -/
def reqK : Msg := [("k", JVal.str "v")]

/-- A job that always raises `FromUser`. -/
def fUser : Msg → WorkOutcome :=
  fun mm => WorkOutcome.fromUser mm "not found" "NotFoundInInbox(x)"

/-- A job that always raises `json.JSONDecodeError`. -/
def fJson : Msg → WorkOutcome :=
  fun mm => WorkOutcome.jsonDecode mm "bad" "JSONDecodeError at 1"

/-- A job that always raises a generic exception. -/
def fOther : Msg → WorkOutcome :=
  fun mm => WorkOutcome.otherExc mm "boom" "RuntimeError: boom"

/-! ## Claim C5 -/

/-- C5: for every string `X` (including `X` that itself starts with
`env://`, `file://`, `secret://` or `value://`), the sensitive-value
resolver applied to `value://` ++ `X` returns exactly `X` (with no side
effects); the `value://` dispatch is checked first, so it takes priority
over every other scheme. -/
theorem C5_value_scheme_priority (env : SensEnv) (X : String) :
    convert_sensitive env (some ("value://" ++ X)) =
      (Except.ok (some (SensVal.str X)), []) := by
  have h1 : pyStartsWith ("value://" ++ X) "value://" = true :=
    pyStartsWith_append "value://" X
  have h2 : pySliceFrom ("value://" ++ X) 8 = X := pySliceFrom_append "value://" X
  simp [convert_sensitive, h1, h2]

/-! ## Claim C6 -/

/-- C6: evaluation of the code at the failing input. Resolving
`file://PATH` when the file is missing fails with the untyped `OSError`
raised by the `os.stat(path)` call in `convert_sensitive` — not with the
typed `ValueError` that `get_from_file` would raise — because the stat
runs before `get_from_file` is ever called. When the stat and the read
succeed, the text contents are returned. -/
theorem C6_missing_file_untyped_error :
    convert_sensitive sensEnvMissing (some "file:///run/missing") =
      (Except.error (SensErr.osError "/run/missing"), [])
    ∧ convert_sensitive sensEnvReadable (some "file:///run/present") =
      (Except.ok (some (SensVal.str "secret-contents")), [])
    ∧ SensErr.osError "/run/missing" ≠
        SensErr.valueError "Error loading /run/missing" := by
  refine ⟨rfl, rfl, fun h => by cases h⟩

/-! ## Claim C10 -/

/-- C10: for every path `PATH`, resolving `secret://` ++ `PATH` attempts
to delete the file at `PATH` whether or not the read succeeded (the
removal sits in a `finally` clause); a failed deletion never changes the
result (it is logged, not raised); and when the read fails the result is
the typed `ValueError`. -/
theorem C10_secret_always_removes (env : SensEnv) (g : String → Bool)
    (path : String) :
    attemptedRemove (convert_sensitive env (some ("secret://" ++ path))).2 path
    ∧ (convert_sensitive { env with removeOk := g }
        (some ("secret://" ++ path))).1 =
      (convert_sensitive env (some ("secret://" ++ path))).1
    ∧ (env.readBin path = none →
        (convert_sensitive env (some ("secret://" ++ path))).1 =
          Except.error (SensErr.valueError ("Error loading " ++ path))) := by
  have hv : pyStartsWith ("secret://" ++ path) "value://" = false := rfl
  have he : pyStartsWith ("secret://" ++ path) "env://" = false := rfl
  have hf : pyStartsWith ("secret://" ++ path) "file://" = false := rfl
  have hs : pyStartsWith ("secret://" ++ path) "secret://" = true :=
    pyStartsWith_append "secret://" path
  have hslice : pySliceFrom ("secret://" ++ path) 9 = path :=
    pySliceFrom_append "secret://" path
  refine ⟨?_, ?_, ?_⟩
  · simp only [convert_sensitive, hv, he, hf, hs, hslice, Bool.false_eq_true,
      if_neg, if_pos, not_false_iff, get_from_file]
    by_cases hr : env.removeOk path
    · cases hb : env.readBin path <;>
        simp [attemptedRemove, hr, hb]
    · cases hb : env.readBin path <;>
        simp [attemptedRemove, hr, hb]
  · simp only [convert_sensitive, hv, he, hf, hs, hslice, Bool.false_eq_true,
      if_neg, if_pos, not_false_iff, get_from_file]
    cases hb : env.readBin path <;> simp [hb]
  · intro hb
    simp [convert_sensitive, hv, he, hf, hs, hslice, get_from_file, hb,
      Except.map]

/-- C10 witness: at a concrete environment in which the read fails and
the removal also fails, resolving `secret:///run/s` still attempts the
removal and returns the typed `ValueError`. -/
theorem C10_secret_always_removes_witness :
    attemptedRemove
      (convert_sensitive sensEnvMissing (some ("secret://" ++ "/run/s"))).2
      "/run/s"
    ∧ (convert_sensitive sensEnvMissing (some ("secret://" ++ "/run/s"))).1 =
        Except.error (SensErr.valueError ("Error loading " ++ "/run/s")) := by
  have h := C10_secret_always_removes sensEnvMissing (fun _ => false) "/run/s"
  exact ⟨h.1, h.2.2 rfl⟩

/-! ## Claim C7 -/

/-- C7: when the broker URI scheme is `amqps` and `verify_hostname` is
configured true, the TLS context construction fails with an assertion
error when `server_hostname` is not set (Python-falsy), and otherwise
produces a context that requires a peer certificate
(`verify_mode = CERT_REQUIRED`) and enables hostname checking. -/
theorem C7_tls_verify_hostname (uri : String) (c : BrokerConf)
    (hs : pyStartsWith uri "amqps" = true) (hv : c.verify_hostname = true) :
    (strTruthy c.server_hostname = false →
      fetch_args uri c =
        Except.error "server_hostname must be set if verify_hostname is")
    ∧ (∀ o, fetch_args uri c = Except.ok o →
        ∃ s, o = some s ∧ s.check_hostname = true
          ∧ s.verify_mode = VerifyMode.certRequired) := by
  constructor
  · intro hsn
    simp [fetch_args, hs, hv, hsn]
  · intro o ho
    by_cases hsn : strTruthy c.server_hostname
    · simp only [fetch_args, hs, if_pos, hv, hsn, Bool.not_true,
        Bool.and_false, Bool.false_eq_true, if_neg, not_false_iff] at ho
      rcases hcf : c.certfile with _ | cf
      · rw [hcf] at ho
        simp only [Except.ok.injEq] at ho
        exact ⟨_, ho.symm, rfl, rfl⟩
      · rw [hcf] at ho
        rcases hkf : c.keyfile with _ | kf
        · rw [hkf] at ho
          cases ho
        · rw [hkf] at ho
          simp only [Except.ok.injEq] at ho
          exact ⟨_, ho.symm, rfl, rfl⟩
    · rw [Bool.not_eq_true] at hsn
      simp only [fetch_args, hs, if_pos, hv, hsn, Bool.not_false,
        Bool.and_true, if_pos] at ho
      cases ho

/-- C7 witness: at a concrete `amqps` URI, the construction fails for the
section without `server_hostname` and succeeds, with hostname checking
and a required peer certificate, for the section with it. -/
theorem C7_tls_verify_hostname_witness :
    fetch_args "amqps://mq.local:5671/vhost" brokerNoSNI =
      Except.error "server_hostname must be set if verify_hostname is"
    ∧ sslWithSNI.check_hostname = true
    ∧ sslWithSNI.verify_mode = VerifyMode.certRequired
    ∧ fetch_args "amqps://mq.local:5671/vhost" brokerWithSNI =
        Except.ok (some sslWithSNI) := by
  have h1 := C7_tls_verify_hostname "amqps://mq.local:5671/vhost" brokerNoSNI
    (by decide) rfl
  have h2 := C7_tls_verify_hostname "amqps://mq.local:5671/vhost" brokerWithSNI
    (by decide) rfl
  obtain ⟨s, hso, hch, hvm⟩ := h2.2 (some sslWithSNI) rfl
  have hs2 : s = sslWithSNI := by
    cases hso
    rfl
  exact ⟨h1.1 rfl, by rw [← hs2]; exact hch, by rw [← hs2]; exact hvm, rfl⟩

/-! ## Claim C3 -/

/-- C3 counterexample: in a configuration whose `DEFAULT` section sets
only `error = foo`, the dispatcher's user-error routing key is the
fallback `error` — not `foo` — while `foo` becomes the system-error key:
the config key `error` holds the system-error routing key, not the
user-error one, so reading the claim's assignment of keys at this
configuration is false. -/
theorem C3_error_key_counterexample :
    cfgErrFoo "error" = some "foo"
    ∧ cfgErrFoo "user_error" = none
    ∧ (consume_keys cfgErrFoo).userErrorKey = "error"
    ∧ (consume_keys cfgErrFoo).errorKey = "foo"
    ∧ ("error" : String) ≠ "foo" := by
  refine ⟨rfl, rfl, rfl, rfl, by decide⟩

/-- C3 amended: the dispatcher reads its routing keys from the `DEFAULT`
section such that the key `user_error` holds the user-error routing key
(defaulting to `error`) and the key `error` holds the system-error
routing key (defaulting to `error.system`); the two options are
independent — neither is an alias of the other. -/
theorem C3_error_keys_amended (cfg : Config) :
    (cfg "user_error" = none → (consume_keys cfg).userErrorKey = "error")
    ∧ (∀ k, cfg "user_error" = some k → (consume_keys cfg).userErrorKey = k)
    ∧ (cfg "error" = none → (consume_keys cfg).errorKey = "error.system")
    ∧ (∀ k, cfg "error" = some k → (consume_keys cfg).errorKey = k) := by
  refine ⟨fun h => ?_, fun k h => ?_, fun h => ?_, fun k h => ?_⟩ <;>
    simp [consume_keys, confGet, h]

/-- C3 witness: the amended reading evaluated at the `error = foo`
configuration. -/
theorem C3_error_keys_amended_witness :
    (consume_keys cfgErrFoo).userErrorKey = "error"
    ∧ (consume_keys cfgErrFoo).errorKey = "foo" :=
  ⟨(C3_error_keys_amended cfgErrFoo).1 rfl,
   (C3_error_keys_amended cfgErrFoo).2.2.2 "foo" rfl⟩

/-! ## Claim C2 -/

/-- C2: for every JSON delivery whose `work` raises `FromUser`, the
dispatcher performs, in order: exactly one publish on the user-error
routing key whose content is the (scrubbed) job content with a `reason`
field equal to `str(cause)`, an ack of the original delivery, exactly one
publish on the system-error routing key by the outer handler, and a
reject. The `reason` field survives the scrub. (Stated for a non-empty
parsed content, a truthy correlation id, a truthy user-error key, and
distinct user-error and system-error keys, as in the default
configuration.) -/
theorem C2_from_user_dispatch (cfg : Config) (cid : String) (m mw : Msg)
    (s r : String) (f : Msg → WorkOutcome)
    (hcid : (cid == "") = false) (hm : m.isEmpty = false)
    (hue : ((consume_keys cfg).userErrorKey == "") = false)
    (hf : f m = WorkOutcome.fromUser mw s r)
    (hkeys : (consume_keys cfg).userErrorKey ≠ (consume_keys cfg).errorKey) :
    process_request cfg cid (Inbound.parsed m) f =
      [ BAct.publish (PubExchange.str (consume_keys cfg).exchange)
          (consume_keys cfg).userErrorKey cid
          (clean_message (msgSet mw "reason" (JVal.str s)))
      , BAct.ack
      , BAct.publish (PubExchange.str (consume_keys cfg).exchange)
          (consume_keys cfg).errorKey cid
          (msgSet (clean_message (msgSet mw "reason" (JVal.str s)))
            "error" (errObj s r))
      , BAct.reject false ]
    ∧ msgGet (clean_message (msgSet mw "reason" (JVal.str s))) "reason" =
        some (JVal.str s)
    ∧ pubCount (process_request cfg cid (Inbound.parsed m) f)
        (consume_keys cfg).userErrorKey = 1
    ∧ pubCount (process_request cfg cid (Inbound.parsed m) f)
        (consume_keys cfg).errorKey = 1 := by
  have hlist : process_request cfg cid (Inbound.parsed m) f =
      [ BAct.publish (PubExchange.str (consume_keys cfg).exchange)
          (consume_keys cfg).userErrorKey cid
          (clean_message (msgSet mw "reason" (JVal.str s)))
      , BAct.ack
      , BAct.publish (PubExchange.str (consume_keys cfg).exchange)
          (consume_keys cfg).errorKey cid
          (msgSet (clean_message (msgSet mw "reason" (JVal.str s)))
            "error" (errObj s r))
      , BAct.reject false ] := by
    simp [process_request, handle_request, publish, pyOrStr, hm, hf, hcid, hue]
    rfl
  have hreason : msgGet (clean_message (msgSet mw "reason" (JVal.str s)))
      "reason" = some (JVal.str s) := by
    unfold clean_message
    rw [msgGet_msgPop_ne _ _ _ (by decide), msgGet_msgPop_ne _ _ _ (by decide),
      msgGet_msgPop_ne _ _ _ (by decide), msgGet_msgPop_ne _ _ _ (by decide)]
    exact msgGet_msgSet_self mw "reason" (JVal.str s)
  have hne1 : ((consume_keys cfg).errorKey == (consume_keys cfg).userErrorKey)
      = false := beq_eq_false_iff_ne.mpr (Ne.symm hkeys)
  have hne2 : ((consume_keys cfg).userErrorKey == (consume_keys cfg).errorKey)
      = false := beq_eq_false_iff_ne.mpr hkeys
  refine ⟨hlist, hreason, ?_, ?_⟩
  · rw [hlist]
    simp [pubCount, hne1]
  · rw [hlist]
    simp [pubCount, hne2]

/-- C2 witness: at the default configuration and a concrete `FromUser`
job, the dispatcher publishes once on `error` (the user-error key) with
the `reason` field set, and once on `error.system`. -/
theorem C2_from_user_dispatch_witness :
    pubCount (process_request cfgEmpty "corr-1" (Inbound.parsed reqK) fUser)
      "error" = 1
    ∧ pubCount (process_request cfgEmpty "corr-1" (Inbound.parsed reqK) fUser)
      "error.system" = 1
    ∧ msgGet (clean_message (msgSet reqK "reason" (JVal.str "not found")))
        "reason" = some (JVal.str "not found") := by
  have h := C2_from_user_dispatch cfgEmpty "corr-1" reqK reqK
    "not found" "NotFoundInInbox(x)" fUser rfl rfl (by decide) rfl (by decide)
  exact ⟨h.2.2.1, h.2.2.2, h.2.1⟩

/-! ## Claim C4 -/

/-- C4 counterexample: a `json.JSONDecodeError` raised by `work` is
neither `RejectMessage` nor `FromUser`, yet the dispatcher's dedicated
`except json.JSONDecodeError` arm catches it first and publishes the
`informal`/`formal`/`message` envelope on the system-error key — a
message carrying no `error` object at all — so the claim's description of
the published content fails at this input (the delivery is still rejected
without requeue). -/
theorem C4_json_decode_counterexample :
    process_request cfgEmpty "corr-2" (Inbound.parsed reqK) fJson =
      [ BAct.publish (PubExchange.str "ingestion.v1") "error.system" "corr-2"
          [ ("informal", JVal.str "Malformed JSON-message")
          , ("formal", JVal.str "JSONDecodeError at 1")
          , ("message", JVal.obj reqK) ]
      , BAct.reject false ]
    ∧ msgGet
        [ ("informal", JVal.str "Malformed JSON-message")
        , ("formal", JVal.str "JSONDecodeError at 1")
        , ("message", JVal.obj reqK) ] "error" = none
    ∧ ([ ("informal", JVal.str "Malformed JSON-message")
       , ("formal", JVal.str "JSONDecodeError at 1")
       , ("message", JVal.obj reqK) ] : Msg) ≠
        msgSet reqK "error" (errObj "bad" "JSONDecodeError at 1") := by
  refine ⟨rfl, rfl, fun h => ?_⟩
  rw [show msgSet reqK "error" (errObj "bad" "JSONDecodeError at 1") =
    reqK ++ [("error", errObj "bad" "JSONDecodeError at 1")] from rfl] at h
  simpa [reqK] using congrArg List.length h

/-- C4 amended: for every JSON delivery whose `work` raises an exception
that is neither `RejectMessage`, `FromUser` nor `json.JSONDecodeError`,
the dispatcher publishes exactly one message on the system-error routing
key — the content enriched with an `error` object holding informal and
formal descriptions of the cause — and rejects the delivery with
`requeue=false`; when the exception is a `json.JSONDecodeError` the same
single publish and reject happen, but the published message is the
`informal`/`formal`/`message` envelope instead. -/
theorem C4_system_error_dispatch (cfg : Config) (cid : String) (m mw : Msg)
    (s r : String) (f : Msg → WorkOutcome) (hm : m.isEmpty = false) :
    (f m = WorkOutcome.otherExc mw s r →
      process_request cfg cid (Inbound.parsed m) f =
        [ BAct.publish (PubExchange.str (consume_keys cfg).exchange)
            (consume_keys cfg).errorKey cid (msgSet mw "error" (errObj s r))
        , BAct.reject false ]
      ∧ pubCount (process_request cfg cid (Inbound.parsed m) f)
          (consume_keys cfg).errorKey = 1)
    ∧ (f m = WorkOutcome.jsonDecode mw s r →
      process_request cfg cid (Inbound.parsed m) f =
        [ BAct.publish (PubExchange.str (consume_keys cfg).exchange)
            (consume_keys cfg).errorKey cid
            [ ("informal", JVal.str "Malformed JSON-message")
            , ("formal", JVal.str r)
            , ("message", JVal.obj mw) ]
        , BAct.reject false ]
      ∧ pubCount (process_request cfg cid (Inbound.parsed m) f)
          (consume_keys cfg).errorKey = 1) := by
  constructor
  · intro hf
    have hlist : process_request cfg cid (Inbound.parsed m) f =
        [ BAct.publish (PubExchange.str (consume_keys cfg).exchange)
            (consume_keys cfg).errorKey cid (msgSet mw "error" (errObj s r))
        , BAct.reject false ] := by
      simp [process_request, handle_request, hm, hf]
    refine ⟨hlist, ?_⟩
    rw [hlist]
    simp [pubCount]
  · intro hf
    have hlist : process_request cfg cid (Inbound.parsed m) f =
        [ BAct.publish (PubExchange.str (consume_keys cfg).exchange)
            (consume_keys cfg).errorKey cid
            [ ("informal", JVal.str "Malformed JSON-message")
            , ("formal", JVal.str r)
            , ("message", JVal.obj mw) ]
        , BAct.reject false ] := by
      simp [process_request, handle_request, hm, hf]
    refine ⟨hlist, ?_⟩
    rw [hlist]
    simp [pubCount]

/-- C4 witness: at the default configuration, a job raising a generic
`RuntimeError` yields exactly one publish on `error.system`, with the
content enriched with the `error` object, followed by the reject. -/
theorem C4_system_error_dispatch_witness :
    process_request cfgEmpty "corr-3" (Inbound.parsed reqK) fOther =
      [ BAct.publish (PubExchange.str "ingestion.v1") "error.system" "corr-3"
          (msgSet reqK "error" (errObj "boom" "RuntimeError: boom"))
      , BAct.reject false ]
    ∧ pubCount (process_request cfgEmpty "corr-3" (Inbound.parsed reqK) fOther)
        "error.system" = 1 :=
  (C4_system_error_dispatch cfgEmpty "corr-3" reqK reqK
    "boom" "RuntimeError: boom" fOther rfl).1 rfl

/-! ## Claim C1 -/

/-- C1: evaluation of the code at the failing input. For an ingestion
request whose file exists in the inbox, the pipeline does publish exactly
one progress message after `mark_in_progress` — a copy of the original
request with `status = PROCESSING` — and pops the `status` field
afterwards, but the call `publish(org_msg, channel, 'cega',
'files.processing')` in `src/lega/ingest.py` binds the positional
arguments of the 4-ary `publish(content, exchange, routing_key,
correlation_id)` in `src/lega/utils/amqp.py` one slot off: the channel
object becomes the exchange, `cega` becomes the routing key, and
`files.processing` becomes the correlation id — not the exchange `cega`
with routing key `files.processing` that the claim (and the call site)
intend. -/
theorem C1_progress_publish_misrouted :
    (work cfgEmpty none envHappy allExists reqHappy).1 =
      [ Ev.insertFile "/a/b.c4gh" "alice"
      , Ev.markInProgress 1
      , Ev.published (BAct.publish PubExchange.channel "cega" "files.processing"
          [ ("filepath", JVal.str "/a/b.c4gh"), ("user", JVal.str "alice")
          , ("file_id", JVal.int 1), ("status", JVal.str "PROCESSING") ])
      , Ev.setInfo 1 "/vault/001" 876 "0a0b" ]
    ∧ PubExchange.channel ≠ PubExchange.str "cega"
    ∧ ("cega" : String) ≠ "files.processing" := by
  refine ⟨rfl, ?_, by decide⟩
  intro h
  cases h

/-! ## Claim C9 -/

/-- C9 counterexample: for the happy-path request, the `org_msg` field of
the reply contains the worker-added `file_id` field, because the shallow
copy `org_msg = data.copy()` in `src/lega/ingest.py` is taken after
`data['file_id'] = file_id` — so `org_msg` is not the original inbound
message verbatim. -/
theorem C9_org_msg_counterexample :
    ((work cfgEmpty none envHappy allExists reqHappy).2.toOption.bind
        (fun d => msgGet d "org_msg"))
      = some (JVal.obj
          [ ("filepath", JVal.str "/a/b.c4gh"), ("user", JVal.str "alice")
          , ("file_id", JVal.int 1) ])
    ∧ msgGet reqHappy "file_id" = none
    ∧ ([ ("filepath", JVal.str "/a/b.c4gh"), ("user", JVal.str "alice")
       , ("file_id", JVal.int 1) ] : Msg) ≠ reqHappy := by
  refine ⟨rfl, rfl, fun h => by simpa [reqHappy] using congrArg List.length h⟩

/-- C9 amended: for every successfully processed delivery (whose inbound
message carries no `status` field), the `org_msg` field of the reply
equals the original inbound message with the worker-assigned `file_id`
field set — all producer-sent fields verbatim and in order, the `status`
field having been added and removed transiently, and no other
worker-added field (`header`, `vault_path`, `org_msg`) present. -/
theorem C9_org_msg_amended (cfg : Config) (ambient : Option String)
    (env : WorkEnv) (pe : String → Bool) (data : Msg) (fp u : String)
    (hfp : msgGet data "filepath" = some (JVal.str fp))
    (hu : msgGet data "user" = some (JVal.str u))
    (hst : msgGet data "status" = none) :
    ∀ d, (work cfg ambient env pe data).2 = Except.ok d →
      msgGet d "org_msg" =
        some (JVal.obj (msgSet data "file_id" (JVal.int env.fileId))) := by
  intro d hd
  by_cases hex : pe (formatTemplate env.inboxTemplate (sanitize_user_id u)
      ++ "/" ++ pyLstripSlash fp)
  · simp [work, hfp, hu, hex, publish, pyOrStr] at hd
    subst hd
    rw [msgGet_msgSet_ne _ _ _ _ (by decide), msgGet_msgSet_ne _ _ _ _ (by decide),
      msgGet_msgSet_self]
    have h1 : msgGet (msgSet data "file_id" (JVal.int env.fileId)) "status"
        = none := by
      rw [msgGet_msgSet_ne _ _ _ _ (by decide)]
      exact hst
    rw [msgPop_msgSet_of_none _ _ _ h1]
  · simp only [work, hfp, hu, hex, Bool.false_eq_true, if_neg,
      not_false_iff] at hd
    cases hd

/-- C9 witness: the amended statement evaluated on the happy-path
request: the reply's `org_msg` is the inbound message plus `file_id`. -/
theorem C9_org_msg_amended_witness :
    msgGet resHappy "org_msg" =
      some (JVal.obj (msgSet reqHappy "file_id" (JVal.int 1))) :=
  C9_org_msg_amended cfgEmpty none envHappy allExists reqHappy
    "/a/b.c4gh" "alice" rfl rfl rfl resHappy rfl

/-! ## Claim C8 -/

/-- C8: in every execution of the ingestion pipeline, every `set_info`
event is preceded by a `mark_in_progress` event for the same file id; and
whenever the pipeline fails with `NotFoundInInbox` (missing inbox file),
neither `mark_in_progress` nor `set_info` was reached. -/
theorem C8_set_info_after_mark (cfg : Config) (ambient : Option String)
    (env : WorkEnv) (pe : String → Bool) (data : Msg) :
    (∀ f t n h, Ev.setInfo f t n h ∈ (work cfg ambient env pe data).1 →
      ∃ l1 l2, (work cfg ambient env pe data).1 =
          l1 ++ Ev.markInProgress f :: l2 ∧ Ev.setInfo f t n h ∈ l2)
    ∧ (∀ fp, (work cfg ambient env pe data).2 =
          Except.error (IngestErr.notFoundInInbox fp) →
        (∀ i, Ev.markInProgress i ∉ (work cfg ambient env pe data).1)
        ∧ (∀ f t n h, Ev.setInfo f t n h ∉ (work cfg ambient env pe data).1)) := by
  rcases hfp : msgGet data "filepath" with _ | vfp
  · have htr : (work cfg ambient env pe data).1 = [] := by simp [work, hfp]
    constructor
    · intro f t n h hmem
      rw [htr] at hmem
      simp at hmem
    · intro fp' herr
      exact ⟨fun i => by rw [htr]; simp, fun f t n h => by rw [htr]; simp⟩
  · cases vfp with
    | int v =>
      have htr : (work cfg ambient env pe data).1 = [] := by simp [work, hfp]
      constructor
      · intro f t n h hmem
        rw [htr] at hmem
        simp at hmem
      · intro fp' herr
        exact ⟨fun i => by rw [htr]; simp, fun f t n h => by rw [htr]; simp⟩
    | obj o =>
      have htr : (work cfg ambient env pe data).1 = [] := by simp [work, hfp]
      constructor
      · intro f t n h hmem
        rw [htr] at hmem
        simp at hmem
      · intro fp' herr
        exact ⟨fun i => by rw [htr]; simp, fun f t n h => by rw [htr]; simp⟩
    | str fp =>
      rcases hu : msgGet data "user" with _ | vu
      · have htr : (work cfg ambient env pe data).1 = [] := by
          simp [work, hfp, hu]
        constructor
        · intro f t n h hmem
          rw [htr] at hmem
          simp at hmem
        · intro fp' herr
          exact ⟨fun i => by rw [htr]; simp, fun f t n h => by rw [htr]; simp⟩
      · cases vu with
        | int v =>
          have htr : (work cfg ambient env pe data).1 = [] := by
            simp [work, hfp, hu]
          constructor
          · intro f t n h hmem
            rw [htr] at hmem
            simp at hmem
          · intro fp' herr
            exact ⟨fun i => by rw [htr]; simp, fun f t n h => by rw [htr]; simp⟩
        | obj o =>
          have htr : (work cfg ambient env pe data).1 = [] := by
            simp [work, hfp, hu]
          constructor
          · intro f t n h hmem
            rw [htr] at hmem
            simp at hmem
          · intro fp' herr
            exact ⟨fun i => by rw [htr]; simp, fun f t n h => by rw [htr]; simp⟩
        | str u =>
          by_cases hex : pe (formatTemplate env.inboxTemplate
              (sanitize_user_id u) ++ "/" ++ pyLstripSlash fp)
          · have htr : (work cfg ambient env pe data).1 =
                [ Ev.insertFile fp (sanitize_user_id u)
                , Ev.markInProgress env.fileId
                , Ev.published (BAct.publish PubExchange.channel "cega"
                    "files.processing"
                    (msgSet (msgSet data "file_id" (JVal.int env.fileId))
                      "status" (JVal.str "PROCESSING")))
                , Ev.setInfo env.fileId env.target env.targetSize
                    env.headerHex ] := by
              simp [work, hfp, hu, hex, publish, pyOrStr]
            constructor
            · intro f t n h hmem
              rw [htr] at hmem
              simp only [List.mem_cons, List.not_mem_nil, or_false] at hmem
              rcases hmem with h1 | h1 | h1 | h1
              · cases h1
              · cases h1
              · cases h1
              · obtain ⟨e1, e2, e3, e4⟩ := Ev.setInfo.inj h1
                subst e1
                subst e2
                subst e3
                subst e4
                refine ⟨[Ev.insertFile fp (sanitize_user_id u)],
                  [ Ev.published (BAct.publish PubExchange.channel "cega"
                      "files.processing"
                      (msgSet (msgSet data "file_id" (JVal.int env.fileId))
                        "status" (JVal.str "PROCESSING")))
                  , Ev.setInfo env.fileId env.target env.targetSize
                      env.headerHex ], ?_, ?_⟩
                · rw [htr]
                  rfl
                · simp
            · intro fp' herr
              simp [work, hfp, hu, hex, publish, pyOrStr] at herr
          · have htr : (work cfg ambient env pe data).1 =
                [Ev.insertFile fp (sanitize_user_id u)] := by
              simp [work, hfp, hu, hex]
            constructor
            · intro f t n h hmem
              rw [htr] at hmem
              simp at hmem
            · intro fp' herr
              exact ⟨fun i => by rw [htr]; simp,
                fun f t n h => by rw [htr]; simp⟩

/-- C8 witness: on the happy path the trace decomposes with
`mark_in_progress` strictly before `set_info`. -/
theorem C8_set_info_after_mark_witness :
    ∃ l1 l2, (work cfgEmpty none envHappy allExists reqHappy).1 =
        l1 ++ Ev.markInProgress 1 :: l2
      ∧ Ev.setInfo 1 "/vault/001" 876 "0a0b" ∈ l2 :=
  (C8_set_info_after_mark cfgEmpty none envHappy allExists reqHappy).1
    1 "/vault/001" 876 "0a0b"
    (show Ev.setInfo 1 "/vault/001" 876 "0a0b" ∈
        [ Ev.insertFile "/a/b.c4gh" "alice"
        , Ev.markInProgress 1
        , Ev.published (BAct.publish PubExchange.channel "cega"
            "files.processing"
            [ ("filepath", JVal.str "/a/b.c4gh"), ("user", JVal.str "alice")
            , ("file_id", JVal.int 1), ("status", JVal.str "PROCESSING") ])
        , Ev.setInfo 1 "/vault/001" 876 "0a0b" ] from by simp)
